import Mathlib

/-!
Verification development for the Speedb/RocksDB log-parser repository.

The Python sources are shallowly embedded as executable Lean definitions:
Python dicts (insertion ordered) become association lists, exceptions become
`Except`/`Option` results, strings are processed as `List Char`, and Python
floats are modelled as rationals (binary-double rounding artifacts are not
modelled; all concrete inputs used below are exactly representable).
-/

namespace LogParserSpec

/-! ## Time model

Log timestamps have the fixed textual form `YYYY/MM/DD-HH:MM:SS.ffffff`.
We model a timestamp by its whole-second value (`sec`, as produced from
`defs_and_utils.get_gmt_timestamp`, which parses via `time.strptime`; a
`struct_time` has no sub-second field, so the microseconds are dropped) and
its microsecond part (`micro`).  Lexicographic order on the pair coincides
with lexicographic order of the fixed-width timestamp strings. -/

structure Timestamp where
  sec : Nat
  micro : Nat
deriving DecidableEq, Repr

/-- Strict lexicographic (= chronological, string) order on timestamps. -/
def Timestamp.lexLt (a b : Timestamp) : Prop :=
  a.sec < b.sec ∨ (a.sec = b.sec ∧ a.micro < b.micro)

/-- Non-strict lexicographic order on timestamps. -/
def Timestamp.lexLe (a b : Timestamp) : Prop :=
  a.sec < b.sec ∨ (a.sec = b.sec ∧ a.micro ≤ b.micro)

instance : DecidableRel Timestamp.lexLt := fun a b =>
  inferInstanceAs (Decidable (a.sec < b.sec ∨ (a.sec = b.sec ∧ a.micro < b.micro)))

instance : DecidableRel Timestamp.lexLe := fun a b =>
  inferInstanceAs (Decidable (a.sec < b.sec ∨ (a.sec = b.sec ∧ a.micro ≤ b.micro)))

/-- `defs_and_utils.compare_times`: compares the GMT whole-second values of
two timestamps and returns -1 / 0 / 1.  Sub-second digits do not
participate (see `get_gmt_timestamp`). -/
def compare_times (t1 t2 : Timestamp) : Int :=
  if t1.sec < t2.sec then -1 else if t2.sec < t1.sec then 1 else 0

/-! ## Generic association-list helpers (Python `dict` semantics)

A Python dict preserves insertion order; updating an existing key keeps its
position, inserting a new key appends it. -/

/-- `d[k]` lookup returning `none` when the key is absent. -/
def alistGet {α β : Type} [DecidableEq α] : List (α × β) → α → Option β
  | [], _ => none
  | (k, v) :: rest, key => if key = k then some v else alistGet rest key

/-- `d[k] = v` assignment: in-place update if present, append if new. -/
def alistSet {α β : Type} [DecidableEq α] : List (α × β) → α → β → List (α × β)
  | [], key, v => [(key, v)]
  | (k, w) :: rest, key, v =>
      if key = k then (k, v) :: rest else (k, w) :: alistSet rest key v

/-- Lookup with a default value. -/
def alistGetD {α β : Type} [DecidableEq α] (l : List (α × β)) (key : α) (dflt : β) : β :=
  (alistGet l key).getD dflt

instance {ε α : Type} [DecidableEq ε] [DecidableEq α] : DecidableEq (Except ε α) :=
  fun x y =>
    match x, y with
    | .error a, .error b =>
        if h : a = b then .isTrue (by rw [h])
        else .isFalse (by intro c; apply h; injection c)
    | .error _, .ok _ => .isFalse (by intro c; exact Except.noConfusion c)
    | .ok _, .error _ => .isFalse (by intro c; exact Except.noConfusion c)
    | .ok a, .ok b =>
        if h : a = b then .isTrue (by rw [h])
        else .isFalse (by intro c; apply h; injection c)

/-! ## Character / string scanning helpers -/

/-- `\w` of Python's `re` (ASCII view): letters, digits and underscore. -/
def isWordChar (c : Char) : Bool :=
  c.isAlpha || c.isDigit || c = '_'

/-- Python's `str.isspace` members that occur in log lines. -/
def isWsChar (c : Char) : Bool :=
  c = ' ' || c = '\t' || c = '\n' || c = '\r'

/-- Drop leading whitespace (`\s*`). -/
def dropWs : List Char → List Char
  | [] => []
  | c :: rest => if isWsChar c then dropWs rest else c :: rest

/-- Take a maximal run of characters satisfying `p`; returns (run, rest). -/
def takeRun (p : Char → Bool) : List Char → (List Char × List Char)
  | [] => ([], [])
  | c :: rest =>
      if p c then
        let (run, rest2) := takeRun p rest
        (c :: run, rest2)
      else ([], c :: rest)

/-- Expect the literal character sequence `lit` at the head; return the rest. -/
def expectLit : List Char → List Char → Option (List Char)
  | [], cs => some cs
  | _ :: _, [] => none
  | l :: ls, c :: cs => if c = l then expectLit ls cs else none

/-- Numeric value of a digit run (the run is assumed to be all digits). -/
def digitsToNat (cs : List Char) : Nat :=
  cs.foldl (fun acc c => acc * 10 + (c.toNat - 48)) 0

/-- `str.strip()`: drop whitespace from both ends. -/
def stripChars (cs : List Char) : List Char :=
  (dropWs ((dropWs cs.reverse).reverse).reverse).reverse

/-- `str.strip()` on a `String`. -/
def strip (s : String) : String :=
  ⟨stripChars s.data⟩

/-- Accumulator-based worker for `splitWs` (`cur` holds the current token
reversed). -/
def splitWsAux : List Char → List Char → List (List Char)
  | [], cur => if cur.isEmpty then [] else [cur.reverse]
  | c :: rest, cur =>
      if isWsChar c then
        if cur.isEmpty then splitWsAux rest []
        else cur.reverse :: splitWsAux rest []
      else splitWsAux rest (c :: cur)

/-- `str.split()` (no argument): split on whitespace runs, no empty parts. -/
def splitWs (cs : List Char) : List (List Char) :=
  splitWsAux cs []

/-! ## `defs_and_utils.get_value_by_unit`

`int(float(size_str) * multiplier)` with unit multipliers
K/KB = 2^10, M/MB = 2^20, G/GB = 2^30, T/TB = 2^40; an unrecognized,
non-empty unit is an assertion failure (modelled as `none`).  Python's
`int()` truncates toward zero. -/

/-- Parse a (non-negative) decimal literal `digits[.digits]` as a mantissa
and a fractional-digit count, so that the value is `mant / 10 ^ frac`;
`none` if the shape is wrong.  (The size regexes feeding this only capture
non-negative decimal numbers.) -/
def parseDecimal (cs : List Char) : Option (Nat × Nat) :=
  let (intPart, rest) := takeRun Char.isDigit cs
  match rest with
  | [] => if intPart.isEmpty then none else some (digitsToNat intPart, 0)
  | '.' :: rest2 =>
      let (fracPart, rest3) := takeRun Char.isDigit rest2
      if rest3.isEmpty && !(intPart.isEmpty && fracPart.isEmpty) then
        some (digitsToNat (intPart ++ fracPart), fracPart.length)
      else none
  | _ => none

def unitMultiplier (unit : List Char) : Option Nat :=
  if unit = [] then some 1
  else if unit = ['K'] || unit = ['K', 'B'] then some (2 ^ 10)
  else if unit = ['M'] || unit = ['M', 'B'] then some (2 ^ 20)
  else if unit = ['G'] || unit = ['G', 'B'] then some (2 ^ 30)
  else if unit = ['T'] || unit = ['T', 'B'] then some (2 ^ 40)
  else none

/-- `defs_and_utils.get_value_by_unit(size_str, size_units_str)`:
`int(float(size_str) * multiplier)` truncates toward zero; for the
non-negative decimal `mant / 10 ^ frac` this is `mant * mult / 10 ^ frac`
in truncating natural division (binary-double rounding not modelled). -/
def get_value_by_unit (size_str unit_str : String) : Option Int := do
  let mult ← unitMultiplier (stripChars unit_str.data)
  let (mant, frac) ← parseDecimal (stripChars size_str.data)
  pure ((mant * mult / 10 ^ frac : Nat) : Int)

/-! ## `Version` (defs_and_utils.py:196-235, identically repeated in
baseline_log_files_utils.py:26-65)

`__init__` applies `re.findall` with the pattern
`VERSION = (\d+)\.(\d+)\.?(\d+)?` and keeps the first match; an empty third
group leaves `patch = None`. -/

structure Version where
  major : Int
  minor : Int
  patch : Option Int
deriving DecidableEq, Repr

/-- First match of the `VERSION` regex in `s`: scans left to right for a
digit run followed by `.` and a digit run, then an optional `.`-prefixed
digit run (the optional groups of the pattern). -/
def versionFirstMatch : List Char → Option (Nat × Nat × Option Nat)
  | [] => none
  | c :: rest =>
      if c.isDigit then
        let (d1, rest1) := takeRun Char.isDigit (c :: rest)
        match rest1 with
        | '.' :: rest2 =>
            let (d2, rest3) := takeRun Char.isDigit rest2
            if d2.isEmpty then versionFirstMatch rest
            else
              match rest3 with
              | '.' :: rest4 =>
                  let (d3, _) := takeRun Char.isDigit rest4
                  if d3.isEmpty then some (digitsToNat d1, digitsToNat d2, none)
                  else some (digitsToNat d1, digitsToNat d2, some (digitsToNat d3))
              | _ => some (digitsToNat d1, digitsToNat d2, none)
        | _ => versionFirstMatch rest
      else versionFirstMatch rest

/-- `Version(version_str)`; `none` models the constructor's assertion
failure when the regex does not match. -/
def Version.parse (s : String) : Option Version :=
  (versionFirstMatch s.data).map fun (ma, mi, pa) =>
    ⟨(ma : Int), (mi : Int), pa.map (fun p => (p : Int))⟩

/-- `Version.get_patch_for_comparison`: an absent patch compares as -1. -/
def Version.patchForComparison (v : Version) : Int :=
  v.patch.getD (-1)

/-- `Version.__eq__`. -/
def Version.eqv (v w : Version) : Bool :=
  v.major = w.major && v.minor = w.minor &&
    v.patchForComparison = w.patchForComparison

/-- `Version.__lt__`. -/
def Version.ltv (v w : Version) : Bool :=
  if v.major ≠ w.major then v.major < w.major
  else if v.minor ≠ w.minor then v.minor < w.minor
  else v.patchForComparison < w.patchForComparison

/-! ## `log_parser.prepare_output_folder` (log_parser.py:100-120)

Scans the existing sibling folder names for `log_parser_<nnnn>` (exactly
four digits), takes the largest number found (0 when none match), resets it
to 1 when it equals 9999, and creates `log_parser_<largest+1>` zero-padded
to four digits. -/

/-- A folder name's number when it matches the convention: starts with
`log_parser_`, and the remainder is numeric of length 4. -/
def parse_output_folder_num (name : String) : Option Nat :=
  match expectLit "log_parser_".data name.data with
  | none => none
  | some rest =>
      if rest.length = 4 && rest.all Char.isDigit then some (digitsToNat rest)
      else none

/-- The `largest_num` scan plus the 9999 reset of `prepare_output_folder`. -/
def prepare_output_folder_num (names : List String) : Nat :=
  let largest := names.foldl
    (fun m n => match parse_output_folder_num n with
      | some k => max m k
      | none => m) 0
  let largest := if largest = 9999 then 1 else largest
  largest + 1

/-- Python `f"{n:04}"`: decimal digits left-padded with zeros to width 4. -/
def format04 (n : Nat) : String :=
  let s := toString n
  ⟨List.replicate (4 - s.length) '0' ++ s.data⟩

/-- The output sub-folder path chosen by `prepare_output_folder`. -/
def prepare_output_folder (parent : String) (names : List String) : String :=
  parent ++ "/log_parser_" ++ format04 (prepare_output_folder_num names)

/-! ## `StatsCountersAndHistogramsMngr` (stats_mngr.py:549-766)

Counter lines follow `STATS_COUNTER = ^ \s* ([\w.]+) \s* COUNT \s* : \s*
<space> (\d+) \s* $`; histogram lines follow `STATS_HISTOGRAM` (name, then
`P50 : f P95 : f P99 : f P100 : f COUNT : i SUM : i` with flexible
whitespace).  The scanners below are anchored at the line start exactly as
the `^`-anchored patterns are.  (One regex nicety is not reproduced: a name
run colliding into the following literal token with no intervening
whitespace (`fooP50:`) would backtrack in `re`; stats lines always separate
them with a space.  For `COUNT` the one-step backtrack is reproduced since
counter names routinely end in word characters.) -/

/-- `[\w.]` - the character class of counter/histogram names. -/
def isNameChar (c : Char) : Bool :=
  isWordChar c || c = '.'

/-- The `COUNT{WS}:{WS} {INT_C}{WS}$` tail of `STATS_COUNTER`: after the
colon the whitespace run must be non-empty and end in a literal space. -/
def counterLineTail (cs : List Char) : Option Int := do
  let cs ← expectLit "COUNT".data cs
  let cs := dropWs cs
  let cs ← expectLit ":".data cs
  let (ws, cs2) := takeRun isWsChar cs
  if ws.isEmpty || ws.getLast? ≠ some ' ' then none
  else
    let (digits, cs3) := takeRun Char.isDigit cs2
    if digits.isEmpty || !(dropWs cs3).isEmpty then none
    else some (digitsToNat digits : Int)

/-- First (only) match of `STATS_COUNTER` against a line: `(name, value)`. -/
def parse_counter_line (line : String) : Option (String × Int) :=
  let cs := dropWs line.data
  let (run, rest) := takeRun isNameChar cs
  if run.isEmpty then none
  else
    match counterLineTail (dropWs rest) with
    | some v => some (⟨run⟩, v)
    | none =>
        if run.length > 5 && run.drop (run.length - 5) = "COUNT".data then
          (counterLineTail ("COUNT".data ++ rest)).map
            fun v => (⟨run.take (run.length - 5)⟩, v)
        else none

structure CounterEntry where
  time : Timestamp
  value : Int
deriving DecidableEq, Repr

structure HistogramValues where
  p50 : ℚ
  p95 : ℚ
  p99 : ℚ
  p100 : ℚ
  count : Int
  sum : Int
  average : ℚ
  intervalCount : Int
  intervalSum : Int
deriving DecidableEq, Repr

structure HistogramEntry where
  time : Timestamp
  values : HistogramValues
deriving DecidableEq, Repr

structure CountersMngr where
  counters_names : List String
  counters : List (String × List CounterEntry)
  histogram_counters_names : List String
  histograms : List (String × List HistogramEntry)
deriving DecidableEq, Repr

def CountersMngr.empty : CountersMngr :=
  ⟨[], [], [], []⟩

/-- `StatsCountersAndHistogramsMngr.try_parse_counter_line`
(stats_mngr.py:587-617).  Returns the `True`/`False` parse outcome plus the
updated manager; a value below the last stored one only logs an error and
returns with the state unchanged (beyond first-seen name registration). -/
def try_parse_counter_line (time : Timestamp) (line : String) (m : CountersMngr) :
    Bool × CountersMngr :=
  match parse_counter_line line with
  | none => (false, m)
  | some (counter_name, value) =>
      let m :=
        if (alistGet m.counters counter_name).isNone then
          { m with
            counters_names := m.counters_names ++ [counter_name],
            counters := m.counters ++ [(counter_name, [])] }
        else m
      let entries := alistGetD m.counters counter_name []
      let decreased : Bool :=
        match entries.getLast? with
        | some prev => decide (value < prev.value)
        | none => false
      if decreased then (true, m)
      else
        (true, { m with
          counters := alistSet m.counters counter_name
            (entries ++ [⟨time, value⟩]) })

/-- The per-line ingestion loop of `add_entry`, restricted to counter
lines (each line of a `STATISTICS:` entry is tried as a counter line
first). -/
def ingestCounterLines (ops : List (Timestamp × String)) (m : CountersMngr) : CountersMngr :=
  ops.foldl (fun m op => (try_parse_counter_line op.1 op.2 m).2) m

/-- `get_counter_entries` (an unknown name yields the empty collection). -/
def get_counter_entries (m : CountersMngr) (name : String) : List CounterEntry :=
  alistGetD m.counters name []

/-- `get_last_counter_entry`. -/
def get_last_counter_entry (m : CountersMngr) (name : String) : Option CounterEntry :=
  (get_counter_entries m name).getLast?

/-- `get_last_counter_value` (stats_mngr.py:723-729). -/
def get_last_counter_value (m : CountersMngr) (name : String) : Int :=
  match get_last_counter_entry m name with
  | none => 0
  | some e => e.value

/-- `get_non_zeroes_counter_entries`: entries with `value > 0`. -/
def get_non_zeroes_counter_entries (m : CountersMngr) (name : String) : List CounterEntry :=
  (get_counter_entries m name).filter (fun e => 0 < e.value)

/-- `are_all_counter_entries_zero`. -/
def are_all_counter_entries_zero (m : CountersMngr) (name : String) : Bool :=
  (get_non_zeroes_counter_entries m name).isEmpty

/-- `get_counters_entries_not_all_zeroes` (iteration order preserved). -/
def get_counters_entries_not_all_zeroes (m : CountersMngr) :
    List (String × List CounterEntry) :=
  m.counters.filter (fun p => !are_all_counter_entries_zero m p.1)

/-- All times appearing in any counter's entry list (the comprehension
inside `get_counters_times`, before the `set`). -/
def all_counters_times (m : CountersMngr) : List Timestamp :=
  (m.counters.map (fun p => p.2.map (·.time))).flatten

/-- `get_counters_times` (stats_mngr.py:683-690): the distinct times across
ALL counters, sorted ascending (Python sorts the timestamp strings, whose
fixed-width lexicographic order is `Timestamp.lexLe`). -/
def get_counters_times (m : CountersMngr) : List Timestamp :=
  (all_counters_times m).dedup.insertionSort Timestamp.lexLe

/-! ### Histogram lines -/

/-- `FLOAT` of regexes.py: `[-+]?(\d+([.,]\d*)?|[.,]\d+)([eE][-+]?\d+)?`.
Returns the value and the unconsumed remainder. -/
def parseFloat (cs : List Char) : Option (ℚ × List Char) :=
  let (sign, cs1) :=
    match cs with
    | '-' :: rest => ((-1 : ℚ), rest)
    | '+' :: rest => ((1 : ℚ), rest)
    | _ => ((1 : ℚ), cs)
  let (d1, cs2) := takeRun Char.isDigit cs1
  let core : Option (ℚ × List Char) :=
    if d1.isEmpty then
      match cs2 with
      | '.' :: rest | ',' :: rest =>
          let (d2, cs3) := takeRun Char.isDigit rest
          if d2.isEmpty then none
          else some ((digitsToNat d2 : ℚ) / (10 : ℚ) ^ d2.length, cs3)
      | _ => none
    else
      match cs2 with
      | '.' :: rest | ',' :: rest =>
          let (d2, cs3) := takeRun Char.isDigit rest
          some ((digitsToNat (d1 ++ d2) : ℚ) / (10 : ℚ) ^ d2.length, cs3)
      | _ => some ((digitsToNat d1 : ℚ), cs2)
  match core with
  | none => none
  | some (v, cs4) =>
      let withExp : Option (ℚ × List Char) :=
        match cs4 with
        | e :: rest =>
            if e = 'e' || e = 'E' then
              let (esign, rest1) :=
                match rest with
                | '-' :: r => (true, r)
                | '+' :: r => (false, r)
                | _ => (false, rest)
              let (ed, rest2) := takeRun Char.isDigit rest1
              if ed.isEmpty then none
              else
                let p : ℚ := (10 : ℚ) ^ (digitsToNat ed)
                some (if esign then v / p else v * p, rest2)
            else none
        | [] => none
      match withExp with
      | some r => some (sign * r.1, r.2)
      | none => some (sign * v, cs4)

/-- `{WS}<tok>{WS}:{WS}FLOAT_C` scanning step of `STATS_HISTOGRAM`. -/
def histFloatField (tok : String) (cs : List Char) : Option (ℚ × List Char) := do
  let cs ← expectLit tok.data (dropWs cs)
  let cs ← expectLit ":".data (dropWs cs)
  parseFloat (dropWs cs)

/-- `{WS}<tok>{WS}:{WS}INT_C` scanning step of `STATS_HISTOGRAM`. -/
def histIntField (tok : String) (cs : List Char) : Option (Int × List Char) := do
  let cs ← expectLit tok.data (dropWs cs)
  let cs ← expectLit ":".data (dropWs cs)
  let (digits, cs2) := dropWs cs |> takeRun Char.isDigit
  if digits.isEmpty then none else some ((digitsToNat digits : Int), cs2)

structure HistogramLineData where
  name : String
  p50 : ℚ
  p95 : ℚ
  p99 : ℚ
  p100 : ℚ
  count : Int
  sum : Int
deriving DecidableEq, Repr

/-- First match of `STATS_HISTOGRAM` against a line (anchored at the line
start; trailing content after the SUM integer is allowed, as in the
pattern). -/
def parse_histogram_line (line : String) : Option HistogramLineData := do
  let cs := dropWs line.data
  let (run, rest) := takeRun isNameChar cs
  if run.isEmpty then none
  else do
    let (p50, rest) ← histFloatField "P50" rest
    let (p95, rest) ← histFloatField "P95" rest
    let (p99, rest) ← histFloatField "P99" rest
    let (p100, rest) ← histFloatField "P100" rest
    let (count, rest) ← histIntField "COUNT" rest
    let (sum, _) ← histIntField "SUM" rest
    pure ⟨⟨run⟩, p50, p95, p99, p100, count, sum⟩

/-- `⌊q + 1/2⌋`, used to model Python's 2-decimal formatting (CPython
formats the nearest binary double; ties and representation artifacts are
not modelled - every value this development evaluates is tie-free and
exactly representable). -/
def ratRoundHalfUp (q : ℚ) : Int :=
  (q.num * 2 + q.den).fdiv (2 * q.den)

/-- `float(f"{q:.2f}")`: round to two decimal places. -/
def round2 (q : ℚ) : ℚ :=
  (ratRoundHalfUp (100 * q) : ℚ) / 100

/-- `StatsCountersAndHistogramsMngr.try_parse_histogram_line`
(stats_mngr.py:619-678).  The outer `none` models the uncaught
`ZeroDivisionError` raised when a line reports `SUM > 0` with `COUNT = 0`
(the code logs that situation and then divides by the zero count anyway);
otherwise the result carries the `True`/`False` parse outcome and the
updated manager.  A count/sum regression logs an error and leaves the
stored history unchanged. -/
def try_parse_histogram_line (time : Timestamp) (line : String) (m : CountersMngr) :
    Option (Bool × CountersMngr) :=
  match parse_histogram_line line with
  | none => some (false, m)
  | some h =>
      let m :=
        if (alistGet m.histograms h.name).isNone then
          { m with
            histograms := m.histograms ++ [(h.name, [])],
            histogram_counters_names := m.histogram_counters_names ++ [h.name] }
        else m
      if h.sum > 0 ∧ h.count = 0 then none
      else
        let average : ℚ :=
          if h.sum > 0 then round2 ((h.sum : ℚ) / (h.count : ℚ)) else 0
        let entries := alistGetD m.histograms h.name []
        let (prev_count, prev_total) :=
          match entries.getLast? with
          | some prev => (prev.values.count, prev.values.sum)
          | none => ((0 : Int), (0 : Int))
        let decreased : Bool :=
          match entries.getLast? with
          | some _ => decide (h.count < prev_count) || decide (h.sum < prev_total)
          | none => false
        if decreased then some (true, m)
        else
          some (true, { m with
            histograms := alistSet m.histograms h.name (entries ++
              [⟨time, ⟨h.p50, h.p95, h.p99, h.p100, h.count, h.sum, average,
                       h.count - prev_count, h.sum - prev_total⟩⟩]) })

/-! ## `csv_outputter.get_counters_csv` (csv_outputter.py:7-54)

One CSV row per time in `get_counters_times()`; per counter a cursor into
its (not-all-zero) entry list that advances only when the pending entry's
time compares equal (via `compare_times`, i.e. equal whole seconds) to the
row's time; otherwise the cell is `0` and the cursor stays.  The
`assert time_diff >= 0` is modelled by the `assertFailed` outcome. -/

inductive CsvResult
  | noCsv
  | assertFailed
  | csv (header : List String) (rows : List (Timestamp × List Int))
deriving DecidableEq, Repr

/-- One cell: the cursor is the not-yet-consumed suffix of the counter's
entries. -/
def csvCellStep (t : Timestamp) : List CounterEntry → Option (Int × List CounterEntry)
  | [] => some (0, [])
  | e :: rest =>
      let d := compare_times e.time t
      if d < 0 then none
      else if d = 0 then some (e.value, rest)
      else some (0, e :: rest)

/-- One row across all applicable counters. -/
def csvRowStep (t : Timestamp) :
    List (String × List CounterEntry) →
      Option (List Int × List (String × List CounterEntry))
  | [] => some ([], [])
  | (name, entries) :: rest =>
      match csvCellStep t entries with
      | none => none
      | some (v, entries2) =>
          match csvRowStep t rest with
          | none => none
          | some (vs, rest2) => some (v :: vs, (name, entries2) :: rest2)

/-- All rows, one per time. -/
def csvRowsAux : List Timestamp → List (String × List CounterEntry) →
    Option (List (Timestamp × List Int))
  | [], _ => some []
  | t :: ts, st =>
      match csvRowStep t st with
      | none => none
      | some (vs, st2) =>
          match csvRowsAux ts st2 with
          | none => none
          | some rows => some ((t, vs) :: rows)

/-- `get_counters_csv`: `noCsv` models the `None` return when every counter
is all-zero; otherwise a header of counter names plus the value rows. -/
def get_counters_csv (m : CountersMngr) : CsvResult :=
  let applicable := get_counters_entries_not_all_zeroes m
  if applicable.isEmpty then CsvResult.noCsv
  else
    match csvRowsAux (get_counters_times m) applicable with
    | none => CsvResult.assertFailed
    | some rows => CsvResult.csv (applicable.map Prod.fst) rows

/-! ## `CompactionStatsMngr` (stats_mngr.py:131-295)

`level_entries` maps a dump time to a per-CF map from row key (`SUM`,
`INTERVAL`, `USER`, `LEVEL-<n>`) to the row's parsed metrics.  Uncaught
Python exceptions (failed asserts, IndexError, TypeError from unpacking a
`None`, a bad size unit) are modelled as `Except.error ()`. -/

/-- A parsed data row.  The source stores one dict per row:
`CF-Num-Files`, `Num-Files` (both kept as the captured digit strings),
`size_bytes`, plus every header-named column from index 2 on taken verbatim
(those are kept apart in `extras`; log headers never collide with the three
fixed keys). -/
structure CompactionRow where
  cf_num_files : String
  num_files : String
  size_bytes : Int
  extras : List (String × String)
deriving DecidableEq, Repr

abbrev CfLevelEntry := List (String × CompactionRow)

abbrev LevelEntries := List (Timestamp × List (String × CfLevelEntry))

/-- `parse_start_line` via `COMPACTION_STATS`:
`^\s* ** Compaction Stats \s* [ (cf) ] \s* ** \s* $` with a greedy CF group
(the trailing fixed part is matched from the right). -/
def parse_compaction_stats_start_line (line : String) : Option String := do
  let cs ← expectLit "** Compaction Stats".data (dropWs line.data)
  let cs ← expectLit "[".data (dropWs cs)
  let rev := dropWs cs.reverse
  let rev ← expectLit "**".data rev
  let rev := dropWs rev
  let rev ← expectLit "]".data rev
  pure ⟨rev.reverse⟩

/-- Row keys: `LineType.name`, suffixed by the level number for levels. -/
inductive CompactionLineType
  | level (n : Nat)
  | sum
  | interval
  | user
deriving DecidableEq, Repr

def CompactionLineType.key : CompactionLineType → String
  | .sum => "SUM"
  | .interval => "INTERVAL"
  | .user => "USER"
  | .level n => "LEVEL-" ++ toString n

/-- First match of `L(\d+)` anywhere in the token. -/
def findLevelNum : List Char → Option Nat
  | [] => none
  | 'L' :: rest =>
      let (ds, _) := takeRun Char.isDigit rest
      if ds.isEmpty then findLevelNum rest else some (digitsToNat ds)
  | _ :: rest => findLevelNum rest

/-- `determine_line_type` on the (stripped) first token; `none` models the
`(None, None)` outcome. -/
def determine_line_type (tok : String) : Option CompactionLineType :=
  let t := stripChars tok.data
  if t = "Sum".data then some .sum
  else if t = "Int".data then some .interval
  else if t = "User".data then some .user
  else (findLevelNum t).map .level

/-- `parse_files_field`: first match of `(\d+)/(\d+)` anywhere, as
`(num_files, cf_num_files)` capture strings. -/
def parse_files_field : List Char → Option (String × String)
  | [] => none
  | c :: rest =>
      if c.isDigit then
        let (d1, rest1) := takeRun Char.isDigit (c :: rest)
        match rest1 with
        | '/' :: rest2 =>
            let (d2, _) := takeRun Char.isDigit rest2
            if d2.isEmpty then parse_files_field rest else some (⟨d1⟩, ⟨d2⟩)
        | _ => parse_files_field rest
      else parse_files_field rest

/-- `parse_header_line`: `none` is the silent-rejection `return None`
(bad separator, or first columns not `Level Files Size`); the error case is
the IndexError on a too-short header whose first columns do match so far. -/
def parse_header_line (header_line separator_line : String) :
    Except Unit (Option (List String)) :=
  let sepSet := stripChars separator_line.data
  if sepSet.isEmpty || !sepSet.all (· = '-') then Except.ok none
  else
    let fields := (splitWs header_line.data).map (fun c => (⟨c⟩ : String))
    match fields[0]? with
    | none => Except.error ()
    | some f0 =>
        if f0 ≠ "Level" then Except.ok none
        else match fields[1]? with
        | none => Except.error ()
        | some f1 =>
            if f1 ≠ "Files" then Except.ok none
            else match fields[2]? with
            | none => Except.error ()
            | some f2 =>
                if f2 ≠ "Size" then Except.ok none
                else Except.ok (some fields)

/-- `{header_fields[i]: line_fields[i] for i in range(2, len(header_fields))}`
(an index beyond the data row is an IndexError). -/
def buildExtras (header_fields line_fields : List String) :
    Except Unit (List (String × String)) :=
  ((List.range header_fields.length).drop 2).foldlM
    (fun d i => do
      match header_fields[i]?, line_fields[i]? with
      | some k, some v => pure (alistSet d k v)
      | _, _ => Except.error ())
    []

/-- The per-data-row loop of `parse_level_lines`; `ok none` models the
early `return`s that abandon the whole call without touching the store. -/
def parseLevelRowsLoop (header_fields : List String) :
    List String → CfLevelEntry → Except Unit (Option CfLevelEntry)
  | [], entry => pure (some entry)
  | line :: rest, entry =>
      let line_fields := (splitWs (stripChars line.data)).map (fun c => (⟨c⟩ : String))
      match line_fields[0]? with
      | none => parseLevelRowsLoop header_fields rest entry
      | some f0 =>
          match determine_line_type f0 with
          | none => pure none
          | some lt => do
              let f1 ← match line_fields[1]? with
                | some f => pure f
                | none => Except.error ()
              let (num_files, cf_num_files) ← match parse_files_field f1.data with
                | some p => pure p
                | none => Except.error ()
              let size_in_units ← match line_fields[2]? with
                | some f => pure f
                | none => Except.error ()
              let size_units ← match line_fields[3]? with
                | some f => pure f
                | none => Except.error ()
              let size_bytes ← match get_value_by_unit size_in_units size_units with
                | some v => pure v
                | none => Except.error ()
              let extras ← buildExtras header_fields line_fields
              let row : CompactionRow := ⟨cf_num_files, num_files, size_bytes, extras⟩
              parseLevelRowsLoop header_fields rest (alistSet entry lt.key row)

/-- `CompactionStatsMngr.parse_level_lines` (stats_mngr.py:217-265), called
with the lines after the `** Compaction Stats [cf] **` start line.  After
building `new_entry` and asserting a `Sum` row, the store update first
inserts an empty dict for an unseen time and then rebinds
`self.level_entries[time]` to a fresh single-key dict of `cf_name` -
an overwrite of the whole per-time dict. -/
def parse_level_lines (time : Timestamp) (cf_name : String) (stats_lines : List String)
    (store : LevelEntries) : Except Unit LevelEntries := do
  let hl ← match stats_lines[0]? with
    | some l => pure l
    | none => Except.error ()
  let sl ← match stats_lines[1]? with
    | some l => pure l
    | none => Except.error ()
  match ← parse_header_line hl sl with
  | none => pure store
  | some header_fields => do
      match ← parseLevelRowsLoop header_fields (stats_lines.drop 2) [] with
      | none => pure store
      | some new_entry =>
          if (alistGet new_entry "SUM").isNone then Except.error ()
          else
            let store :=
              if (alistGet store time).isNone then alistSet store time [] else store
            pure (alistSet store time [(cf_name, new_entry)])

/-- `CompactionStatsMngr.add_lines` (stats_mngr.py:152-162): strips the
lines, asserts the start line's CF name, and dispatches on the second
line's first word (`Priority` blocks are recognized but not parsed). -/
def compaction_add_lines (time : Timestamp) (cf_name : String)
    (stats_lines : List String) (store : LevelEntries) : Except Unit LevelEntries := do
  let stats_lines := stats_lines.map strip
  let l0 ← match stats_lines[0]? with
    | some l => pure l
    | none => Except.error ()
  if parse_compaction_stats_start_line l0 ≠ some cf_name then Except.error ()
  else do
    let l1 ← match stats_lines[1]? with
      | some l => pure l
      | none => Except.error ()
    if (expectLit "Level".data l1.data).isSome then
      parse_level_lines time cf_name (stats_lines.drop 1) store
    else if (expectLit "Priority".data l1.data).isSome then
      pure store
    else Except.error ()

/-! ### DB size (calc_utils.py:33-60) -/

/-- Modelled from the spec: `CompactionStatsMngr.get_first_level_entry_all_cfs`
is called by calc_utils.py but defined in a module revision that is not
under src/; per spec 4.11 the DB size is read at the first available
per-CF-per-level snapshot, so this returns the per-CF map recorded at the
earliest dump time (falsy/empty when no snapshot exists). -/
def get_first_level_entry_all_cfs (store : LevelEntries) : List (String × CfLevelEntry) :=
  (store.head?.map Prod.snd).getD []

/-- Modelled from the spec: `CompactionStatsMngr.get_last_level_entry_all_cfs`
(see `get_first_level_entry_all_cfs`); the last available snapshot. -/
def get_last_level_entry_all_cfs (store : LevelEntries) : List (String × CfLevelEntry) :=
  (store.getLast?.map Prod.snd).getD []

/-- Modelled from the spec:
`CompactionStatsMngr.get_sum_value(cf_entry, LevelFields.SIZE_BYTES)` is
called by calc_utils.py but not defined under src/; per spec 4.11 it reads
the `Sum` row's `size_bytes` metric of one CF's snapshot. -/
def get_sum_value_size_bytes (cf_entry : CfLevelEntry) : Option Int :=
  (alistGet cf_entry "SUM").map (·.size_bytes)

/-- `calc_utils.get_db_size_bytes_at_start` (calc_utils.py:33-44): returns
0 when no snapshot exists; otherwise it sums the per-CF `Sum` row
`size_bytes` into a local - and falls off the end of the function without a
`return`, so Python hands the caller `None` (modelled `none`; `some k`
models an `int` result; the error case is `int(None)` when a `Sum` row is
absent). -/
def get_db_size_bytes_at_start (store : LevelEntries) : Except Unit (Option Int) := do
  let first_entry_all_cfs := get_first_level_entry_all_cfs store
  if first_entry_all_cfs.isEmpty then pure (some 0)
  else do
    let _size_bytes ← first_entry_all_cfs.foldlM (fun acc p =>
      match get_sum_value_size_bytes p.2 with
      | some v => pure (acc + v)
      | none => Except.error ()) (0 : Int)
    pure none

/-- `calc_utils.get_db_size_bytes_at_end` (calc_utils.py:47-60): same
computation over the last snapshot, with the `return size_bytes` present. -/
def get_db_size_bytes_at_end (store : LevelEntries) : Except Unit (Option Int) := do
  let last_entry_all_cfs := get_last_level_entry_all_cfs store
  if last_entry_all_cfs.isEmpty then pure (some 0)
  else do
    let size_bytes ← last_entry_all_cfs.foldlM (fun acc p =>
      match get_sum_value_size_bytes p.2 with
      | some v => pure (acc + v)
      | none => Except.error ()) (0 : Int)
    pure (some size_bytes)

/-! ## Shared error model and tokenizer (defs_and_utils.py:61-99,
log_file.py:182-223)

The error kinds raised/handled across the code base.  `ParsingError`, its
`ParsingAssertion` subtype and `LogFileNotFoundError` are declared in
src/defs_and_utils.py; `EmptyLogFile` and `InvalidLogFile` are raised by
src/log_file.py:185/189 and handled by src/log_parser.py:249-254, but the
revision of the shared-utilities module that declares those two classes is
not under src/ - their constructors are modelled from the spec
(`EmptyLogFile(path)`, `InvalidLogFile(path)`, spec sections 4.2 and 7). -/

inductive LogParseErr
  | parsingErr (msg : String)
  | parsingAssert (msg : String)
  | logFileNotFound (path : String)
  | emptyLogFile (path : String)
  | invalidLogFile (path : String)
deriving DecidableEq, Repr

/-- The tokenizer's `LogEntry` view: start line index plus collected
lines (log_entry.py is not under src/; only these constructor/append
operations are exercised by `parse_log_to_entries`). -/
structure TokLogEntry where
  start_line_idx : Nat
  lines : List String
deriving DecidableEq, Repr

def TokLogEntry.add_line (e : TokLogEntry) (line : String) : TokLogEntry :=
  { e with lines := e.lines ++ [line] }

/-- Character-predicate template matcher; returns the unconsumed rest. -/
def matchShape : List (Char → Bool) → List Char → Option (List Char)
  | [], cs => some cs
  | _ :: _, [] => none
  | p :: ps, c :: cs => if p c then matchShape ps cs else none

/-- The 26-character `TIMESTAMP` template
`\d{4}/\d{2}/\d{2}-\d{2}:\d{2}:\d{2}\.\d{6}` of regexes.py. -/
def tsTemplate : List (Char → Bool) :=
  let d := Char.isDigit
  [d, d, d, d, (· = '/'), d, d, (· = '/'), d, d, (· = '-'),
   d, d, (· = ':'), d, d, (· = ':'), d, d, (· = '.'), d, d, d, d, d, d]

/-- `START_LINE_PARTS` succeeds at this position: a timestamp followed by
a space and at least one word character (the thread token); the remaining
groups of the pattern are all optional. -/
def startLinePartsAt (cs : List Char) : Bool :=
  match matchShape tsTemplate cs with
  | none => false
  | some rest =>
      match rest with
      | ' ' :: c :: _ => isWordChar c
      | _ => false

/-- Modelled from the spec: `LogEntry.is_entry_start` (log_entry.py is not
under src/).  Spec 3/4.3: an entry-start line matches the entry-start
pattern - timestamp + thread token (the `(Original Log Time ...)` marker,
severity tag and code-position tag are optional); the `START_LINE_PARTS`
pattern of src/regexes.py is searched for anywhere in the line. -/
def is_entry_start (line : String) : Bool :=
  go line.data
where
  go : List Char → Bool
    | [] => false
    | c :: rest => startLinePartsAt (c :: rest) || go rest

/-- The per-line loop of `parse_log_to_entries`.  The `parsingAssert` case
is the `raise` on a continuation line with no open entry outside skip mode;
it is unreachable once the first line is known to be an entry start (and in
Python that `raise` would itself crash with a TypeError, the
`ParsingAssertion` constructor being called with one argument too many -
either way the parse aborts). -/
def tokenizeLoop : List (Nat × String) → List TokLogEntry →
    Option TokLogEntry → Bool → Except LogParseErr (List TokLogEntry)
  | [], acc, newEntry, _skip =>
      match newEntry with
      | some e => .ok (acc ++ [e])
      | none => .ok acc
  | (idx, line) :: rest, acc, newEntry, skip =>
      if is_entry_start line then
        match newEntry with
        | some e => tokenizeLoop rest (acc ++ [e]) (some ⟨idx, [line]⟩) false
        | none => tokenizeLoop rest acc (some ⟨idx, [line]⟩) false
      else
        match newEntry with
        | some e => tokenizeLoop rest acc (some (e.add_line line)) skip
        | none =>
            if skip then tokenizeLoop rest acc none skip
            else .error (.parsingAssert "Bug while parsing log to entries.")

/-- `ParsedLog.parse_log_to_entries` (log_file.py:182-223): a file with
zero lines raises `EmptyLogFile(path)`; a first line that is not an
entry start raises `InvalidLogFile(path)`; otherwise lines are folded into
frozen entries. -/
def parse_log_to_entries (log_file_path : String) (log_lines : List String) :
    Except LogParseErr (List TokLogEntry) :=
  match log_lines with
  | [] => .error (.emptyLogFile log_file_path)
  | first :: _ =>
      if !is_entry_start first then .error (.invalidLogFile log_file_path)
      else tokenizeLoop log_lines.enum [] none false

/-! ## `CfsMetadata` (cfs_infos.py)

The `CfMetadata` dataclass field order is
`(name, discovery_time, has_options, auto_generated, id, drop_time)`.
Python lets `_update_cf` pass `int(cf_id)` into the `has_options` slot;
`PyBoolInt` keeps that duck typing visible. -/

inductive PyBoolInt
  | ofBool (b : Bool)
  | ofInt (n : Int)
deriving DecidableEq, Repr

structure CfMetadataRec where
  name : String
  discovery_time : Timestamp
  has_options : PyBoolInt
  auto_generated : Bool
  id : Option Int
  drop_time : Option Timestamp
deriving DecidableEq, Repr

/-- The `LogEntry` view used by `CfsMetadata` (`get_time` / `get_msg`). -/
structure ParsedEntry where
  time : Timestamp
  msg : String
deriving DecidableEq, Repr

abbrev CfsInfo := List (String × CfMetadataRec)

/-- First occurrence of the literal `pat`; returns the remainder after it. -/
def findLit (pat : List Char) : List Char → Option (List Char)
  | [] => expectLit pat []
  | c :: rest =>
      match expectLit pat (c :: rest) with
      | some r => some r
      | none => findLit pat rest

/-- First match of `CREATE_CF`:
`Created column family \[(\w*?)\] \s* \(ID \s+ (\d+)\)` (the lazy name
group is exactly a run of word characters up to the closing bracket).
Scanning restarts at later occurrences of the leading literal only through
this first one - log lines carry the pattern at most once. -/
def matchCreateCf (msg : String) : Option (String × Int) := do
  let rest ← findLit "Created column family [".data msg.data
  let (nameRun, rest1) := takeRun isWordChar rest
  let rest2 ← expectLit "]".data rest1
  let rest3 ← expectLit "(ID".data (dropWs rest2)
  let (ws, rest4) := takeRun isWsChar rest3
  if ws.isEmpty then none
  else
    let (ds, rest5) := takeRun Char.isDigit rest4
    if ds.isEmpty then none
    else do
      let _ ← expectLit ")".data rest5
      pure (⟨nameRun⟩, (digitsToNat ds : Int))

/-- `validate_cf_exists` (cfs_infos.py:200-204): a ParsingError when the
name is NOT registered. -/
def validate_cf_exists (info : CfsInfo) (cf_name : String) : Except String Unit :=
  if (alistGet info cf_name).isSome then .ok ()
  else .error "cf does not exist"

/-- `validate_cf_id_unknown_or_same` (cfs_infos.py:217-222); note the
Python truthiness test `if curr_cf_id and ...`: both `None` and `0` skip
the consistency check. -/
def validate_cf_id_unknown_or_same (info : CfsInfo) (cf_name : String) (cf_id : Int) :
    Except String Unit :=
  match alistGet info cf_name with
  | none => .error "KeyError"
  | some r =>
      match r.id with
      | some curr =>
          if curr ≠ 0 ∧ curr ≠ cf_id then .error "id of cf already exists"
          else .ok ()
      | none => .ok ()

/-- `CfsMetadata._update_cf` (cfs_infos.py:141-148).  The record it writes
is `CfMetadata(cf_name, entry.get_time(), int(cf_id), is_auto_generated)` -
positionally, `int(cf_id)` lands in `has_options` and
`is_auto_generated = False` in `auto_generated`, so `id` stays `None`. -/
def update_cf (info : CfsInfo) (cf_name : String) (cf_id : Int) (entry : ParsedEntry) :
    Except String CfsInfo := do
  let _ ← validate_cf_exists info cf_name
  let _ ← validate_cf_id_unknown_or_same info cf_name cf_id
  pure (alistSet info cf_name ⟨cf_name, entry.time, .ofInt cf_id, false, none, none⟩)

/-- `CfsMetadata.try_parse_as_create_cf` (cfs_infos.py:130-139). -/
def try_parse_as_create_cf (entry : ParsedEntry) (info : CfsInfo) :
    Except String (Bool × CfsInfo) :=
  match matchCreateCf entry.msg with
  | none => .ok (false, info)
  | some (cf_name, cf_id) => do
      let info ← update_cf info cf_name cf_id entry
      pure (true, info)

/-- `CfsMetadata.handle_cf_name_found_during_parsing` (cfs_infos.py:58-69):
lazily registers an unseen name (`has_options = False`,
`auto_generated = False`, no id). -/
def handle_cf_name_found_during_parsing (info : CfsInfo) (cf_name : String)
    (entry : ParsedEntry) : Bool × CfsInfo :=
  if (alistGet info cf_name).isSome then (false, info)
  else (true, info ++ [(cf_name, ⟨cf_name, entry.time, .ofBool false, false, none, none⟩)])

/-! ## Event preambles (events_mngr.py:52-85, 177-209) -/

inductive EventTypePy
  | flush_started
  | flush_finished
  | compaction_started
  | compaction_finished
  | table_file_creation
  | table_file_deletion
  | trivial_move
  | recovery_started
  | recovery_finished
  | ingest_finished
  | blob_file_creation
  | blob_file_deletion
  | unknown
deriving DecidableEq, Repr

structure EventPreambleInfo where
  cf_name : String
  type : EventTypePy
  job_id : Int
deriving DecidableEq, Repr

/-- `\] \[JOB ([0-9]+)\]` attempted at this position. -/
def jobMarkerAt (cs : List Char) : Option (Nat × List Char) := do
  let rest ← expectLit "] [JOB ".data cs
  let (ds, rest2) := takeRun Char.isDigit rest
  if ds.isEmpty then none
  else do
    let rest3 ← expectLit "]".data rest2
    pure (digitsToNat ds, rest3)

/-- Earliest job marker; the preceding characters form the lazy `(.*?)`
group. -/
def scanJobMarker : List Char → Option (List Char × Nat × List Char)
  | [] => none
  | c :: rest =>
      match jobMarkerAt (c :: rest) with
      | some (jid, after) => some ([], jid, after)
      | none =>
          (scanJobMarker rest).map (fun r => (c :: r.1, r.2.1, r.2.2))

/-- First match of `PREAMBLE_EVENT = \[(.*?)\] \[JOB ([0-9]+)\]\s*(.*)` in
a (single-line) message: the lazy CF group runs from the first `[` to the
earliest following job marker; the third group is the rest of the line
after optional whitespace. -/
def matchPreambleEvent (msg : String) : Option (String × Nat × String) := do
  let afterBracket ← findLit "[".data msg.data
  let (cfRun, jid, after) ← scanJobMarker afterBracket
  pure (⟨cfRun⟩, jid, ⟨dropWs after⟩)

/-- `Event.try_parse_event_preamble` (events_mngr.py:66-85): `none` when
the message does not match, when the bracketed CF name is not among the
known `cf_names`, or when the free text starts with neither compaction nor
flush wording. -/
def try_parse_event_preamble (msg : String) (cf_names : List String) :
    Option EventPreambleInfo := do
  let (cf_name, job_id, rest_of_msg) ← matchPreambleEvent msg
  if cf_name ∉ cf_names then none
  else
    let rest := strip rest_of_msg
    if (expectLit "Compacting ".data rest.data).isSome then
      pure ⟨cf_name, .compaction_started, (job_id : Int)⟩
    else if (expectLit "Flushing memtable with next log file".data rest.data).isSome then
      pure ⟨cf_name, .flush_started, (job_id : Int)⟩
    else none

/-- The `EventsMngr` state relevant to preamble handling: the registered
CF names and the pending-preamble cache keyed by job id. -/
structure EventsMngrState where
  cf_names : List String
  preambles : List (Int × (EventTypePy × String))
deriving DecidableEq, Repr

/-- `EventsMngr.try_parsing_as_preamble` (events_mngr.py:193-209); the
error models the `assert` on re-encountering a cached job id with
different parameters. -/
def try_parsing_as_preamble (entry_msg : String) (m : EventsMngrState) :
    Except Unit (Bool × EventsMngrState) :=
  match try_parse_event_preamble entry_msg m.cf_names with
  | none => .ok (false, m)
  | some info =>
      match alistGet m.preambles info.job_id with
      | some cached =>
          if cached ≠ (info.type, info.cf_name) then .error ()
          else .ok (true, { m with
            preambles := alistSet m.preambles info.job_id (info.type, info.cf_name) })
      | none =>
          .ok (true, { m with
            preambles := alistSet m.preambles info.job_id (info.type, info.cf_name) })

/-! ## Auxiliary relations and spec-side characterizations -/

/-- Entries ordered by strictly increasing time. -/
def CounterEntry.lt (a b : CounterEntry) : Prop :=
  Timestamp.lexLt a.time b.time

instance : DecidableRel CounterEntry.lt := fun a b =>
  inferInstanceAs (Decidable (Timestamp.lexLt a.time b.time))

/-- Entries ordered by non-decreasing value. -/
def CounterEntry.valLe (a b : CounterEntry) : Prop :=
  a.value ≤ b.value

/-- Spec-side cell rule of the counters CSV: the counter's recorded value
at exactly time `t`, else 0. -/
def counterValueAt (entries : List CounterEntry) (t : Timestamp) : Int :=
  ((entries.find? (fun e => decide (e.time = t))).map (·.value)).getD 0

/-- The `(prev_count, prev_total)` baseline of `try_parse_histogram_line`:
the last stored entry's Count/Sum, or `(0, 0)` when the name has no stored
entry yet. -/
def histPrevCountSum (m : CountersMngr) (name : String) : Int × Int :=
  match (alistGetD m.histograms name []).getLast? with
  | some p => (p.values.count, p.values.sum)
  | none => ((0 : Int), (0 : Int))

instance : IsTotal Timestamp Timestamp.lexLe :=
  ⟨by intro a b; unfold Timestamp.lexLe; omega⟩

instance : IsTrans Timestamp Timestamp.lexLe :=
  ⟨by intro a b c; unfold Timestamp.lexLe; omega⟩

instance : IsTrans CounterEntry CounterEntry.lt :=
  ⟨by intro a b c; unfold CounterEntry.lt Timestamp.lexLt; omega⟩

theorem Timestamp.lexLt_trans {a b c : Timestamp} :
    a.lexLt b → b.lexLt c → a.lexLt c := by
  unfold Timestamp.lexLt; omega

theorem Timestamp.lexLt_irrefl (a : Timestamp) : ¬ a.lexLt a := by
  unfold Timestamp.lexLt; omega

theorem Timestamp.lexLt_ne {a b : Timestamp} (h : a.lexLt b) : a ≠ b := by
  rintro rfl; exact Timestamp.lexLt_irrefl a h

theorem Timestamp.lexLe_of_lexLt {a b : Timestamp} (h : a.lexLt b) : a.lexLe b := by
  unfold Timestamp.lexLt at h; unfold Timestamp.lexLe; omega

theorem Timestamp.lexLt_of_lexLe_ne {a b : Timestamp} (h : a.lexLe b) (hne : a ≠ b) :
    a.lexLt b := by
  unfold Timestamp.lexLe at h; unfold Timestamp.lexLt
  rcases h with h | ⟨h1, h2⟩
  · exact Or.inl h
  · refine Or.inr ⟨h1, lt_of_le_of_ne h2 ?_⟩
    intro hm
    exact hne (by cases a; cases b; simp_all)

/-! ## Association-list lemmas -/

theorem alistGet_alistSet_self {α β : Type} [DecidableEq α]
    (l : List (α × β)) (k : α) (v : β) : alistGet (alistSet l k v) k = some v := by
  induction l with
  | nil => simp [alistSet, alistGet]
  | cons p rest ih =>
      by_cases h : k = p.1
      · simp [alistSet, alistGet, h]
      · simp [alistSet, alistGet, h, ih]

theorem alistGet_alistSet_ne {α β : Type} [DecidableEq α]
    (l : List (α × β)) (k k' : α) (v : β) (h : k' ≠ k) :
    alistGet (alistSet l k v) k' = alistGet l k' := by
  induction l with
  | nil => simp [alistSet, alistGet, h]
  | cons p rest ih =>
      by_cases hp : k = p.1
      · subst hp; simp [alistSet, alistGet, h]
      · by_cases hq : k' = p.1
        · simp [alistSet, alistGet, hp, hq]
        · simp [alistSet, alistGet, hp, hq, ih]

theorem mem_alistSet {α β : Type} [DecidableEq α]
    (l : List (α × β)) (k : α) (v : β) (p : α × β) (h : p ∈ alistSet l k v) :
    p = (k, v) ∨ p ∈ l := by
  induction l with
  | nil => simpa [alistSet] using h
  | cons q rest ih =>
      by_cases hq : k = q.1
      · subst hq
        simp only [alistSet, if_pos rfl] at h
        rcases List.mem_cons.mp h with h | h
        · left; rw [h]
        · right; exact List.mem_cons_of_mem _ h
      · simp only [alistSet, if_neg hq] at h
        rcases List.mem_cons.mp h with h | h
        · right; exact h ▸ List.mem_cons_self _ _
        · rcases ih h with h | h
          · exact Or.inl h
          · exact Or.inr (List.mem_cons_of_mem _ h)

theorem alistGet_mem {α β : Type} [DecidableEq α]
    (l : List (α × β)) (k : α) (v : β) (h : alistGet l k = some v) : (k, v) ∈ l := by
  induction l with
  | nil => simp [alistGet] at h
  | cons p rest ih =>
      by_cases hp : k = p.1
      · subst hp
        have h2 : p.2 = v := by simpa [alistGet] using h
        rw [← h2]
        exact List.mem_cons_self _ _
      · simp only [alistGet, if_neg hp] at h
        exact List.mem_cons_of_mem _ (ih h)

theorem alistGet_append {α β : Type} [DecidableEq α]
    (l₁ l₂ : List (α × β)) (k : α) :
    alistGet (l₁ ++ l₂) k =
      (match alistGet l₁ k with
       | some v => some v
       | none => alistGet l₂ k) := by
  induction l₁ with
  | nil => simp [alistGet]
  | cons p rest ih =>
      by_cases hp : k = p.1
      · simp [alistGet, hp]
      · simp [alistGet, hp, ih]

/-! ## Claim C4 - Version equality with absent vs. zero patch -/

/-- C4 counterexample: `Version("1.2")` and `Version("1.2.0")` differ only
in an absent vs. a present-and-zero patch, yet `Version.__eq__` returns
`False` (the absent patch compares as -1, the present one as 0). -/
theorem C4_absent_vs_zero_patch_counterexample :
    (do
      let a ← Version.parse "1.2"
      let b ← Version.parse "1.2.0"
      pure (Version.eqv a b)) = some false := by
  decide

/-- C4 (amended): for versions differing only in an absent patch versus a
present patch equal to 0, `Version(v1) == Version(v2)` does NOT hold -
the absent patch compares as -1, so `Version(v1) < Version(v2)` instead. -/
theorem C4_absent_vs_zero_patch :
    ∀ v w : Version, v.patch = none → w.major = v.major → w.minor = v.minor →
      w.patch = some 0 → Version.eqv v w = false ∧ Version.ltv v w = true := by
  intro v w hp hmaj hmin hwp
  constructor
  · unfold Version.eqv Version.patchForComparison
    rw [hp, hwp]
    simp
  · unfold Version.ltv Version.patchForComparison
    rw [hp, hwp, hmaj, hmin]
    simp

/-- C4 witness: the amended statement evaluated at 1.2 vs 1.2.0. -/
theorem C4_absent_vs_zero_patch_witness :
    Version.eqv ⟨1, 2, none⟩ ⟨1, 2, some 0⟩ = false ∧
      Version.ltv ⟨1, 2, none⟩ ⟨1, 2, some 0⟩ = true :=
  C4_absent_vs_zero_patch ⟨1, 2, none⟩ ⟨1, 2, some 0⟩ rfl rfl rfl rfl

/-! ## Claim C8 - output sub-folder numbering -/

/-- C8 counterexample: with `log_parser_9999` the only existing sibling,
the code resets the scan result to 1 and allocates `log_parser_0002`, not
`log_parser_0001` as the claim states. -/
theorem C8_wraparound_counterexample :
    prepare_output_folder "out" ["log_parser_9999"] = "out/log_parser_0002" := by
  decide

/-- C8 (amended): the sub-folder is `log_parser_<n>` with `n` zero-padded
to 4 digits and computed as one past the maximum number among matching
sibling names (1 when none match) - except that when the maximum is 9999
the counter restarts at 2 (the code resets the maximum to 1 and still adds
one), not at 1. -/
theorem C8_output_folder_numbering :
    ∀ (parent : String) (names : List String),
      prepare_output_folder parent names =
        parent ++ "/log_parser_" ++ format04 (prepare_output_folder_num names) ∧
      ((names.filterMap parse_output_folder_num).max? = none →
        prepare_output_folder_num names = 1) ∧
      (∀ m : Nat, (names.filterMap parse_output_folder_num).max? = some m →
        (m ≠ 9999 → prepare_output_folder_num names = m + 1) ∧
        (m = 9999 → prepare_output_folder_num names = 2)) := by
  intro parent names
  have hfold : ∀ (ns : List String) (a : Nat),
      ns.foldl (fun m n => match parse_output_folder_num n with
        | some k => max m k
        | none => m) a = (ns.filterMap parse_output_folder_num).foldl max a := by
    intro ns
    induction ns with
    | nil => intro a; rfl
    | cons n rest ih =>
        intro a
        cases h : parse_output_folder_num n with
        | none => simp [List.filterMap_cons, h, ih]
        | some k => simp [List.filterMap_cons, h, ih]
  refine ⟨rfl, ?_, ?_⟩
  · intro hnone
    have hnil : names.filterMap parse_output_folder_num = [] :=
      List.max?_eq_none_iff.mp hnone
    unfold prepare_output_folder_num
    rw [hfold, hnil]
    rfl
  · intro m hm
    have hne : names.filterMap parse_output_folder_num ≠ [] := by
      intro h
      rw [h] at hm
      simp at hm
    obtain ⟨x, xs, hxs⟩ := List.exists_cons_of_ne_nil hne
    have hcons : (x :: xs).max? = some (xs.foldl max x) := rfl
    have hmax : m = xs.foldl max x := by
      rw [hxs, hcons] at hm
      injection hm with h
      exact h.symm
    have hzero : (names.filterMap parse_output_folder_num).foldl max 0 = m := by
      rw [hxs, List.foldl_cons, Nat.zero_max, ← hmax]
    constructor
    · intro hne9
      simp only [prepare_output_folder_num, hfold, hzero, if_neg hne9]
    · intro he9
      subst he9
      simp only [prepare_output_folder_num, hfold, hzero]
      simp

/-- C8 witness: the amended statement evaluated at a concrete sibling
set (maximum 7 among matching names). -/
theorem C8_output_folder_numbering_witness :
    prepare_output_folder_num ["log_parser_0007", "junk", "log_parser_123"] = 8 := by
  have h := (C8_output_folder_numbering "out"
    ["log_parser_0007", "junk", "log_parser_123"]).2.2 7 (by decide)
  exact h.1 (by decide)

/-! ## Claim C2 - empty / invalid log file rejection -/

/-- C2: tokenizing a file with zero lines raises `EmptyLogFile` carrying
the file path, and a file whose first line does not match the entry-start
pattern raises `InvalidLogFile`; both kinds are constructors of the shared
error model `LogParseErr` alongside `parsingErr`, `parsingAssert` and
`logFileNotFound`. -/
theorem C2_empty_and_invalid_log_file :
    ∀ (path l : String) (ls : List String),
      parse_log_to_entries path [] = .error (.emptyLogFile path) ∧
      (is_entry_start l = false →
        parse_log_to_entries path (l :: ls) = .error (.invalidLogFile path)) := by
  intro path l ls
  refine ⟨rfl, fun h => ?_⟩
  simp [parse_log_to_entries, h]

/-- C2 witness: a concrete non-entry-start first line is rejected. -/
theorem C2_empty_and_invalid_log_file_witness :
    is_entry_start "hello" = false ∧
      parse_log_to_entries "LOG" ["hello"] = .error (.invalidLogFile "LOG") :=
  ⟨by decide, (C2_empty_and_invalid_log_file "LOG" "hello" []).2 (by decide)⟩

/-! ## Claim C10 - preambles with unregistered CF names -/

/-- C10: an entry matching the preamble shape whose bracketed CF name is
not among the registered names yields `None` from
`try_parse_event_preamble`, and `try_parsing_as_preamble` returns `False`
leaving the pending-preamble cache unchanged, so no CF-name backfill can
happen for that job id from this entry. -/
theorem C10_unknown_cf_preamble_ignored :
    ∀ (msg cf rest : String) (jid : Nat) (names : List String)
      (pre : List (Int × (EventTypePy × String))),
      matchPreambleEvent msg = some (cf, jid, rest) →
      cf ∉ names →
      try_parse_event_preamble msg names = none ∧
      try_parsing_as_preamble msg ⟨names, pre⟩ = .ok (false, ⟨names, pre⟩) := by
  intro msg cf rest jid names pre hm hn
  have h1 : try_parse_event_preamble msg names = none := by
    unfold try_parse_event_preamble
    rw [hm]
    simp [hn]
  refine ⟨h1, ?_⟩
  unfold try_parsing_as_preamble
  rw [h1]

/-- C10 witness: a preamble-shaped message for an unknown CF `foo`. -/
theorem C10_unknown_cf_preamble_ignored_witness :
    try_parse_event_preamble "[foo] [JOB 3] Compacting 1@1" ["default"] = none ∧
      try_parsing_as_preamble "[foo] [JOB 3] Compacting 1@1" ⟨["default"], []⟩ =
        .ok (false, ⟨["default"], []⟩) :=
  C10_unknown_cf_preamble_ignored "[foo] [JOB 3] Compacting 1@1" "foo"
    "Compacting 1@1" 3 ["default"] [] (by decide) (by decide)

/-! ## Claim C7 - CF-creation entries -/

/-- C7: evaluation at the failing input.  Processing
`Created column family [cf1] (ID 7)` against an empty registry raises a
ParsingError (`validate_cf_exists` fires for UNKNOWN names - no record is
created); for an already-known name the entry is accepted, but the id 7
lands positionally in the `has_options` dataclass slot with `id` left
`None`, and a subsequent conflicting `ID 8` for the same name is accepted
without any parsing error (the id-consistency check compares the
still-`None` id). -/
theorem C7_create_cf_divergence :
    try_parse_as_create_cf ⟨⟨10, 0⟩, "Created column family [cf1] (ID 7)"⟩ [] =
      .error "cf does not exist" ∧
    (handle_cf_name_found_during_parsing [] "cf1" ⟨⟨5, 0⟩, "warn line"⟩).2 =
      [("cf1", ⟨"cf1", ⟨5, 0⟩, .ofBool false, false, none, none⟩)] ∧
    try_parse_as_create_cf ⟨⟨10, 0⟩, "Created column family [cf1] (ID 7)"⟩
        [("cf1", ⟨"cf1", ⟨5, 0⟩, .ofBool false, false, none, none⟩)] =
      .ok (true, [("cf1", ⟨"cf1", ⟨10, 0⟩, .ofInt 7, false, none, none⟩)]) ∧
    try_parse_as_create_cf ⟨⟨20, 0⟩, "Created column family [cf1] (ID 8)"⟩
        [("cf1", ⟨"cf1", ⟨10, 0⟩, .ofInt 7, false, none, none⟩)] =
      .ok (true, [("cf1", ⟨"cf1", ⟨20, 0⟩, .ofInt 8, false, none, none⟩)]) :=
  ⟨rfl, rfl, rfl, rfl⟩

/-! ## Claim C1 - DB size at start/end of log -/

/-- C1: evaluation at the failing input.  With one compaction-stats
snapshot whose `Sum` row holds 100 KB, `get_db_size_bytes_at_end` returns
the 102400-byte sum, but `get_db_size_bytes_at_start` - whose Python body
computes the same sum and then falls off the end without a `return` -
yields `None`; with no snapshot both return 0. -/
theorem C1_db_size_missing_return :
    (do
      let s ← compaction_add_lines ⟨100, 0⟩ "cf1"
        ["** Compaction Stats [cf1] **", "Level Files Size Score",
         "----", " Sum 1/0 100 KB 1.0"] []
      get_db_size_bytes_at_start s) = Except.ok none ∧
    (do
      let s ← compaction_add_lines ⟨100, 0⟩ "cf1"
        ["** Compaction Stats [cf1] **", "Level Files Size Score",
         "----", " Sum 1/0 100 KB 1.0"] []
      get_db_size_bytes_at_end s) = Except.ok (some 102400) ∧
    get_db_size_bytes_at_start ([] : LevelEntries) = Except.ok (some 0) ∧
    get_db_size_bytes_at_end ([] : LevelEntries) = Except.ok (some 0) := by
  decide

/-! ## Claim C5 - per-time per-CF compaction snapshot retention -/

/-- C5: evaluation at the failing input.  After `add_lines` for `cf1` at
time t, `cf1`'s entry is stored; a subsequent `add_lines` for `cf2` at the
SAME time rebinds the whole per-time dict to the single key `cf2`, so
`cf1`'s entry is gone - the first CF's entry is NOT retained alongside the
second's. -/
theorem C5_same_time_cf_overwrite :
    (do
      let s1 ← compaction_add_lines ⟨100, 0⟩ "cf1"
        ["** Compaction Stats [cf1] **", "Level Files Size Score",
         "----", " Sum 1/0 100 KB 1.0"] []
      pure (alistGet (alistGetD s1 ⟨100, 0⟩ []) "cf1")) =
      Except.ok (some [("SUM", ⟨"0", "1", 102400, [("Size", "100"), ("Score", "KB")]⟩)]) ∧
    (do
      let s1 ← compaction_add_lines ⟨100, 0⟩ "cf1"
        ["** Compaction Stats [cf1] **", "Level Files Size Score",
         "----", " Sum 1/0 100 KB 1.0"] []
      let s2 ← compaction_add_lines ⟨100, 0⟩ "cf2"
        ["** Compaction Stats [cf2] **", "Level Files Size Score",
         "----", " Sum 2/1 2.00 MB 1.0"] s1
      pure (alistGet (alistGetD s2 ⟨100, 0⟩ []) "cf1",
            alistGet (alistGetD s2 ⟨100, 0⟩ []) "cf2")) =
      Except.ok (none,
        some [("SUM", ⟨"1", "2", 2097152, [("Size", "2.00"), ("Score", "MB")]⟩)]) := by
  decide

/-! ## Claim C3 - counter monotonicity -/

theorem chain_valLe_of_mem_counters (m : CountersMngr)
    (hm : ∀ p ∈ m.counters, List.Chain' CounterEntry.valLe p.2)
    (name : String) (es : List CounterEntry)
    (h : alistGet m.counters name = some es) : List.Chain' CounterEntry.valLe es :=
  hm (name, es) (alistGet_mem _ _ _ h)

theorem try_parse_counter_line_preserves_chain (t : Timestamp) (line : String)
    (m : CountersMngr)
    (hm : ∀ p ∈ m.counters, List.Chain' CounterEntry.valLe p.2) :
    ∀ p ∈ (try_parse_counter_line t line m).2.counters,
      List.Chain' CounterEntry.valLe p.2 := by
  unfold try_parse_counter_line
  cases hp : parse_counter_line line with
  | none => simpa using hm
  | some nv =>
      obtain ⟨name, v⟩ := nv
      cases hreg : alistGet m.counters name with
      | some es =>
          simp only [hreg, Option.isNone_some, Bool.false_eq_true, if_false,
            alistGetD, Option.getD_some]
          cases hlast : es.getLast? with
          | none =>
              have hes : es = [] := List.getLast?_eq_none_iff.mp hlast
              subst hes
              simp only [List.nil_append]
              intro p hmem
              rcases mem_alistSet _ _ _ _ hmem with h | h
              · rw [h]; exact List.chain'_singleton _
              · exact hm p h
          | some e =>
              by_cases hlt : v < e.value
              · simp only [hlast, hlt, decide_True, if_true]
                exact hm
              · simp only [hlast, hlt, decide_False, if_false]
                intro p hmem
                rcases mem_alistSet _ _ _ _ hmem with h | h
                · rw [h]
                  refine List.chain'_append.mpr
                    ⟨chain_valLe_of_mem_counters m hm name es hreg,
                     List.chain'_singleton _, ?_⟩
                  intro x hx y hy
                  rw [hlast] at hx
                  simp only [Option.mem_def, Option.some.injEq] at hx
                  simp only [List.head?_cons, Option.mem_def, Option.some.injEq] at hy
                  subst hx; subst hy
                  exact le_of_not_lt hlt
                · exact hm p h
      | none =>
          have hgetapp : alistGet (m.counters ++ [(name, [])]) name = some [] := by
            rw [alistGet_append]
            simp [hreg, alistGet]
          simp only [hreg, Option.isNone_none, if_true, hgetapp,
            alistGetD, Option.getD_some, List.getLast?_nil, List.nil_append]
          intro p hmem
          rcases mem_alistSet _ _ _ _ hmem with h | h
          · rw [h]; exact List.chain'_singleton _
          · rcases List.mem_append.mp h with h | h
            · exact hm p h
            · simp only [List.mem_singleton] at h
              rw [h]; exact List.chain'_nil

theorem ingest_preserves_chain (ops : List (Timestamp × String)) :
    ∀ (m : CountersMngr),
      (∀ p ∈ m.counters, List.Chain' CounterEntry.valLe p.2) →
      ∀ p ∈ (ingestCounterLines ops m).counters, List.Chain' CounterEntry.valLe p.2 := by
  induction ops with
  | nil => intro m hm; exact hm
  | cons op rest ih =>
      intro m hm
      exact ih _ (try_parse_counter_line_preserves_chain op.1 op.2 m hm)

/-- C3: for every counter name the stored value sequence is monotonically
non-decreasing over any ingest sequence from the empty manager; a counter
line whose value is below the last stored value for its name returns
`True` but leaves the manager unchanged (the error is only logged); and
ingesting the value sequence [0, 10, 5] at three timestamps stores exactly
[0, 10], with `get_last_counter_value` returning 10. -/
theorem C3_counter_monotonicity :
    (∀ (ops : List (Timestamp × String)) (name : String),
        List.Chain' CounterEntry.valLe
          (get_counter_entries (ingestCounterLines ops CountersMngr.empty) name)) ∧
    (∀ (t : Timestamp) (line : String) (m : CountersMngr) (name : String)
        (v : Int) (entries : List CounterEntry) (e : CounterEntry),
        parse_counter_line line = some (name, v) →
        alistGet m.counters name = some entries →
        entries.getLast? = some e →
        v < e.value →
        try_parse_counter_line t line m = (true, m)) ∧
    (ingestCounterLines
        [(⟨10, 0⟩, "c COUNT : 0"), (⟨20, 0⟩, "c COUNT : 10"), (⟨30, 0⟩, "c COUNT : 5")]
        CountersMngr.empty).counters = [("c", [⟨⟨10, 0⟩, 0⟩, ⟨⟨20, 0⟩, 10⟩])] ∧
    get_last_counter_value
        (ingestCounterLines
          [(⟨10, 0⟩, "c COUNT : 0"), (⟨20, 0⟩, "c COUNT : 10"), (⟨30, 0⟩, "c COUNT : 5")]
          CountersMngr.empty) "c" = 10 := by
  refine ⟨?_, ?_, by decide, by decide⟩
  · intro ops name
    have h := ingest_preserves_chain ops CountersMngr.empty (by intro p hp; simp [CountersMngr.empty] at hp)
    unfold get_counter_entries alistGetD
    cases hg : alistGet (ingestCounterLines ops CountersMngr.empty).counters name with
    | none => exact List.chain'_nil
    | some es => exact h (name, es) (alistGet_mem _ _ _ hg)
  · intro t line m name v entries e h1 h2 h3 h4
    unfold try_parse_counter_line
    rw [h1]
    simp only [h2, Option.isNone_some, Bool.false_eq_true, if_false,
      alistGetD, Option.getD_some, h3, h4, decide_True, if_true]

/-- C3 witness: a regressing line (5 after 10) leaves the concrete manager
unchanged. -/
theorem C3_counter_monotonicity_witness :
    try_parse_counter_line ⟨40, 0⟩ "c COUNT : 5"
        ⟨["c"], [("c", [⟨⟨10, 0⟩, 0⟩, ⟨⟨20, 0⟩, 10⟩])], [], []⟩ =
      (true, ⟨["c"], [("c", [⟨⟨10, 0⟩, 0⟩, ⟨⟨20, 0⟩, 10⟩])], [], []⟩) :=
  C3_counter_monotonicity.2.1 ⟨40, 0⟩ "c COUNT : 5" _ "c" 5
    [⟨⟨10, 0⟩, 0⟩, ⟨⟨20, 0⟩, 10⟩] ⟨⟨20, 0⟩, 10⟩
    (by decide) (by decide) (by decide) (by decide)

/-! ## Claim C6 - histogram derived fields -/

theorem round2_zero : round2 0 = 0 := by
  with_unfolding_all rfl

/-- C6 counterexample: the FIRST stored entry for a histogram name gets
"Interval Count"/"Interval Sum" equal to the line's own Count/Sum (5 and
10 here, deltas against an implicit (0, 0) baseline), not 0 as the claim
states. -/
theorem C6_first_interval_counterexample :
    (try_parse_histogram_line ⟨10, 0⟩
        "h P50 : 1.0 P95 : 2.0 P99 : 3.5 P100 : 4.0 COUNT : 5 SUM : 10"
        CountersMngr.empty).map
      (fun r => (r.1, (alistGetD r.2.histograms "h" []).map
        (fun e => (e.values.count, e.values.sum,
                   e.values.intervalCount, e.values.intervalSum)))) =
    some (true, [(5, 10, 5, 10)]) := by
  decide

/-- C6 (amended): for every successfully parsed histogram line that passes
the monotonicity check, the stored entry is appended with: Average equal to
Sum/Count rounded to 2 decimals when Count > 0 and 0.00 when Count is 0;
and "Interval Count"/"Interval Sum" equal to the deltas from the
immediately preceding stored entry for that name, the baseline being
(0, 0) when this is the first stored entry - so the first entry's interval
fields equal its own Count and Sum rather than 0. -/
theorem C6_histogram_derived_fields :
    ∀ (t : Timestamp) (line : String) (m : CountersMngr) (h : HistogramLineData),
      parse_histogram_line line = some h →
      0 ≤ h.count →
      0 ≤ h.sum →
      ¬(h.sum > 0 ∧ h.count = 0) →
      (histPrevCountSum m h.name).1 ≤ h.count →
      (histPrevCountSum m h.name).2 ≤ h.sum →
      (try_parse_histogram_line t line m).map
          (fun r => (r.1, alistGetD r.2.histograms h.name [])) =
        some (true, alistGetD m.histograms h.name [] ++
          [⟨t, ⟨h.p50, h.p95, h.p99, h.p100, h.count, h.sum,
                (if 0 < h.count then round2 ((h.sum : ℚ) / (h.count : ℚ)) else 0),
                h.count - (histPrevCountSum m h.name).1,
                h.sum - (histPrevCountSum m h.name).2⟩⟩]) := by
  intro t line m h hp hc0 hs0 hz hcm hsm
  have havg : (if h.sum > 0 then round2 ((h.sum : ℚ) / (h.count : ℚ)) else 0)
      = (if 0 < h.count then round2 ((h.sum : ℚ) / (h.count : ℚ)) else 0) := by
    by_cases hs : h.sum > 0
    · have hcne : h.count ≠ 0 := fun hc => hz ⟨hs, hc⟩
      have hcpos : 0 < h.count := lt_of_le_of_ne hc0 (Ne.symm hcne)
      rw [if_pos hs, if_pos hcpos]
    · have hsz : h.sum = 0 := le_antisymm (not_lt.mp hs) hs0
      rw [if_neg hs]
      by_cases hc : 0 < h.count
      · rw [if_pos hc, hsz]
        simp [round2_zero]
      · rw [if_neg hc]
  unfold try_parse_histogram_line
  rw [hp]
  cases hreg : alistGet m.histograms h.name with
  | some es =>
      have hentries : alistGetD m.histograms h.name [] = es := by
        simp [alistGetD, hreg]
      simp only [hreg, Option.isNone_some, Bool.false_eq_true, if_false,
        if_neg hz, alistGetD, Option.getD_some]
      cases hlast : es.getLast? with
      | none =>
          have hes : es = [] := List.getLast?_eq_none_iff.mp hlast
          subst hes
          have hprev : histPrevCountSum m h.name = (0, 0) := by
            unfold histPrevCountSum
            rw [hentries]
            rfl
          simp only [List.getLast?_nil, Option.map_some', List.nil_append,
            hentries, hprev]
          rw [← havg]
          simp [alistGetD, alistGet_alistSet_self]
      | some p =>
          have hprev : histPrevCountSum m h.name = (p.values.count, p.values.sum) := by
            unfold histPrevCountSum
            rw [hentries, hlast]
          rw [hprev] at hcm hsm
          simp only [hlast]
          have hd1 : decide (h.count < p.values.count) = false :=
            decide_eq_false (not_lt.mpr hcm)
          have hd2 : decide (h.sum < p.values.sum) = false :=
            decide_eq_false (not_lt.mpr hsm)
          simp only [hd1, hd2, Bool.or_self, Bool.false_eq_true, if_false,
            Option.map_some', hentries, hprev]
          rw [← havg]
          simp [alistGetD, alistGet_alistSet_self]
  | none =>
      have hentries : alistGetD m.histograms h.name [] = [] := by
        simp [alistGetD, hreg]
      have hgetapp : alistGet (m.histograms ++ [(h.name, [])]) h.name = some [] := by
        rw [alistGet_append]
        simp [hreg, alistGet]
      have hprev : histPrevCountSum m h.name = (0, 0) := by
        unfold histPrevCountSum
        rw [hentries]
        rfl
      simp only [hreg, Option.isNone_none, if_true, if_neg hz, alistGetD,
        hgetapp, Option.getD_some, List.getLast?_nil, List.nil_append,
        Option.map_some', hentries, hprev]
      rw [← havg]
      simp [alistGetD, alistGet_alistSet_self]

/-- C6 witness: the amended statement at a concrete first histogram line
(COUNT 5, SUM 10) over the empty manager. -/
theorem C6_histogram_derived_fields_witness :
    (try_parse_histogram_line ⟨10, 0⟩
        "h P50 : 1.0 P95 : 2.0 P99 : 3.5 P100 : 4.0 COUNT : 5 SUM : 10"
        CountersMngr.empty).map
        (fun r => (r.1, alistGetD r.2.histograms "h" [])) =
      some (true, alistGetD CountersMngr.empty.histograms "h" [] ++
        [⟨⟨10, 0⟩, ⟨1, 2, 7/2, 4, 5, 10,
          (if 0 < (5 : Int) then round2 (((10 : Int) : ℚ) / ((5 : Int) : ℚ)) else 0),
          5 - (histPrevCountSum CountersMngr.empty "h").1,
          10 - (histPrevCountSum CountersMngr.empty "h").2⟩⟩]) := by
  have := C6_histogram_derived_fields ⟨10, 0⟩
    "h P50 : 1.0 P95 : 2.0 P99 : 3.5 P100 : 4.0 COUNT : 5 SUM : 10"
    CountersMngr.empty ⟨"h", 1, 2, 7/2, 4, 5, 10⟩
    (by with_unfolding_all rfl) (by decide) (by decide) (by decide)
    (by decide) (by decide)
  simpa using this

/-! ## Claim C9 - counters CSV -/

theorem counterValueAt_nil (t : Timestamp) : counterValueAt [] t = 0 := rfl

/-- Filtering by membership in a time set does not change the looked-up
value at a time inside that set. -/
theorem counterValueAt_filter (es : List CounterEntry) (ts : List Timestamp)
    (u : Timestamp) (hu : u ∈ ts) :
    counterValueAt (es.filter (fun e => decide (e.time ∈ ts))) u =
      counterValueAt es u := by
  induction es with
  | nil => rfl
  | cons e rest ih =>
      by_cases he : e.time ∈ ts
      · rw [List.filter_cons_of_pos (by simpa using he)]
        by_cases heq : e.time = u
        · unfold counterValueAt
          rw [List.find?_cons_of_pos _ (by simpa using heq),
            List.find?_cons_of_pos _ (by simpa using heq)]
        · unfold counterValueAt at ih ⊢
          rw [List.find?_cons_of_neg _ (by simpa using heq),
            List.find?_cons_of_neg _ (by simpa using heq)]
          exact ih
      · have hne : e.time ≠ u := fun hh => he (hh ▸ hu)
        rw [List.filter_cons_of_neg (by simpa using he)]
        unfold counterValueAt at ih ⊢
        rw [List.find?_cons_of_neg _ (by simpa using hne)]
        exact ih

theorem csvCellStep_spec (t : Timestamp) (ts : List Timestamp) (es : List CounterEntry)
    (hchain : List.Chain' CounterEntry.lt es)
    (hmem : ∀ e ∈ es, e.time ∈ t :: ts)
    (hmin : ∀ u ∈ ts, t.lexLt u)
    (hsec : ∀ a ∈ t :: ts, ∀ b ∈ t :: ts, a.sec = b.sec → a = b) :
    csvCellStep t es =
      some (counterValueAt es t, es.filter (fun e => decide (e.time ∈ ts))) := by
  have htnotints : t ∉ ts := fun h => Timestamp.lexLt_irrefl t (hmin t h)
  cases es with
  | nil => simp [csvCellStep, counterValueAt]
  | cons e rest =>
      have hrest_rel : ∀ r ∈ rest, CounterEntry.lt e r := fun r hr =>
        List.rel_of_pairwise_cons (List.chain'_iff_pairwise.mp hchain) hr
      have hrestmem : ∀ r ∈ rest, r.time ∈ t :: ts := fun r hr =>
        hmem r (List.mem_cons_of_mem _ hr)
      rcases List.mem_cons.mp (hmem e (List.mem_cons_self _ _)) with he | he
      · -- the pending entry is exactly at the row's time
        have hd : compare_times e.time t = 0 := by
          simp [compare_times, he]
        have hrest_ne : ∀ r ∈ rest, r.time ≠ t := by
          intro r hr hh
          have hrel := hrest_rel r hr
          unfold CounterEntry.lt at hrel
          rw [he, hh] at hrel
          exact Timestamp.lexLt_irrefl t hrel
        have hfilter_rest : rest.filter (fun r => decide (r.time ∈ ts)) = rest := by
          apply List.filter_eq_self.mpr
          intro r hr
          rcases List.mem_cons.mp (hrestmem r hr) with h | h
          · exact absurd h (hrest_ne r hr)
          · simpa using h
        have hval : counterValueAt (e :: rest) t = e.value := by
          unfold counterValueAt
          rw [List.find?_cons_of_pos _ (by simpa using he)]
          rfl
        have hfil : (e :: rest).filter (fun r => decide (r.time ∈ ts)) = rest := by
          rw [List.filter_cons_of_neg (by simp [he, htnotints]), hfilter_rest]
        rw [hval, hfil]
        show (if compare_times e.time t < 0 then none
              else if compare_times e.time t = 0 then some (e.value, rest)
              else some (0, e :: rest)) = some (e.value, rest)
        rw [hd]
        norm_num
      · -- the pending entry is strictly later than the row's time
        have hlt : t.lexLt e.time := hmin _ he
        have hne : t ≠ e.time := fun hh => htnotints (hh ▸ he)
        have hsec_lt : t.sec < e.time.sec := by
          rcases hmin _ he with h | ⟨h1, _⟩
          · exact h
          · exact absurd (hsec t (List.mem_cons_self _ _) e.time
              (List.mem_cons_of_mem _ he) h1) hne
        have hd : compare_times e.time t = 1 := by
          unfold compare_times
          rw [if_neg (by omega), if_pos hsec_lt]
        have hall_ne : ∀ r ∈ e :: rest, r.time ≠ t := by
          intro r hr
          rcases List.mem_cons.mp hr with h | h
          · rw [h]
            exact fun hh => Timestamp.lexLt_irrefl t (hh ▸ hlt)
          · intro hh
            have h2 : t.lexLt r.time := Timestamp.lexLt_trans hlt (hrest_rel r h)
            rw [hh] at h2
            exact Timestamp.lexLt_irrefl t h2
        have hval : counterValueAt (e :: rest) t = 0 := by
          unfold counterValueAt
          rw [List.find?_eq_none.mpr (by intro r hr; simpa using hall_ne r hr)]
          rfl
        have hfil : (e :: rest).filter (fun r => decide (r.time ∈ ts)) = e :: rest := by
          apply List.filter_eq_self.mpr
          intro r hr
          rcases List.mem_cons.mp (hmem r hr) with h | h
          · exact absurd h (hall_ne r hr)
          · simpa using h
        rw [hval, hfil]
        show (if compare_times e.time t < 0 then none
              else if compare_times e.time t = 0 then some (e.value, rest)
              else some (0, e :: rest)) = some (0, e :: rest)
        rw [hd]
        norm_num

theorem csvRowStep_spec (t : Timestamp) (ts : List Timestamp) :
    ∀ (st : List (String × List CounterEntry)),
      (∀ p ∈ st, List.Chain' CounterEntry.lt p.2) →
      (∀ p ∈ st, ∀ e ∈ p.2, e.time ∈ t :: ts) →
      (∀ u ∈ ts, t.lexLt u) →
      (∀ a ∈ t :: ts, ∀ b ∈ t :: ts, a.sec = b.sec → a = b) →
      csvRowStep t st =
        some (st.map (fun p => counterValueAt p.2 t),
              st.map (fun p => (p.1, p.2.filter (fun e => decide (e.time ∈ ts))))) := by
  intro st
  induction st with
  | nil => intro _ _ _ _; rfl
  | cons p rest ih =>
      intro hchain hmem hmin hsec
      obtain ⟨name, entries⟩ := p
      have hcell := csvCellStep_spec t ts entries (hchain _ (List.mem_cons_self _ _))
        (hmem _ (List.mem_cons_self _ _)) hmin hsec
      have hrest := ih (fun q hq => hchain q (List.mem_cons_of_mem _ hq))
        (fun q hq => hmem q (List.mem_cons_of_mem _ hq)) hmin hsec
      simp only [csvRowStep, hcell, hrest]
      rfl

theorem csvRowsAux_spec :
    ∀ (ts : List Timestamp) (st : List (String × List CounterEntry)),
      ts.Pairwise Timestamp.lexLt →
      (∀ a ∈ ts, ∀ b ∈ ts, a.sec = b.sec → a = b) →
      (∀ p ∈ st, List.Chain' CounterEntry.lt p.2) →
      (∀ p ∈ st, ∀ e ∈ p.2, e.time ∈ ts) →
      csvRowsAux ts st =
        some (ts.map (fun t => (t, st.map (fun p => counterValueAt p.2 t)))) := by
  intro ts
  induction ts with
  | nil => intro st _ _ _ _; rfl
  | cons t ts ih =>
      intro st hpw hsec hchain hmem
      have hmin : ∀ u ∈ ts, t.lexLt u := (List.pairwise_cons.mp hpw).1
      have hstep := csvRowStep_spec t ts st hchain hmem hmin hsec
      have hrec := ih (st.map (fun p => (p.1, p.2.filter (fun e => decide (e.time ∈ ts)))))
        (List.pairwise_cons.mp hpw).2
        (fun a ha b hb => hsec a (List.mem_cons_of_mem _ ha) b (List.mem_cons_of_mem _ hb))
        (by
          intro q hq
          rcases List.mem_map.mp hq with ⟨p, hp, hpq⟩
          rw [← hpq]
          exact (hchain p hp).sublist (List.filter_sublist _))
        (by
          intro q hq e he
          rcases List.mem_map.mp hq with ⟨p, hp, hpq⟩
          rw [← hpq] at he
          simpa using (List.mem_filter.mp he).2)
      simp only [csvRowsAux, hstep, hrec]
      refine congrArg some (congrArg (List.cons _) ?_)
      refine List.map_congr_left ?_
      intro u hu
      refine congrArg (Prod.mk u) ?_
      rw [List.map_map]
      refine List.map_congr_left ?_
      intro p hp
      simp only [Function.comp_apply]
      exact counterValueAt_filter p.2 ts u hu

theorem mem_all_counters_times (m : CountersMngr) (p : String × List CounterEntry)
    (hp : p ∈ m.counters) (e : CounterEntry) (he : e ∈ p.2) :
    e.time ∈ all_counters_times m := by
  unfold all_counters_times
  refine List.mem_flatten.mpr ⟨p.2.map (·.time), ?_, ?_⟩
  · exact List.mem_map.mpr ⟨p, hp, rfl⟩
  · exact List.mem_map.mpr ⟨e, he, rfl⟩

theorem mem_get_counters_times (m : CountersMngr) (t : Timestamp) :
    t ∈ get_counters_times m ↔ t ∈ all_counters_times m := by
  unfold get_counters_times
  rw [List.mem_insertionSort, List.mem_dedup]

theorem get_counters_times_pairwise (m : CountersMngr) :
    (get_counters_times m).Pairwise Timestamp.lexLt := by
  unfold get_counters_times
  have hs : List.Pairwise Timestamp.lexLe
      ((all_counters_times m).dedup.insertionSort Timestamp.lexLe) :=
    List.sorted_insertionSort Timestamp.lexLe _
  have hn : ((all_counters_times m).dedup.insertionSort Timestamp.lexLe).Nodup :=
    (List.perm_insertionSort Timestamp.lexLe _).nodup_iff.mpr (List.nodup_dedup _)
  exact (hs.and hn).imp fun hab => Timestamp.lexLt_of_lexLe_ne hab.1 hab.2

/-- C9 counterexample: with counter `b` sampled (value 7) only at t1 and
counter `a` all-zero with its only sample at t2, the emitted CSV has TWO
rows - one per distinct timestamp across ALL counters (the all-zero `a`
contributes t2 even though it is excluded from the columns), where the
claim predicts exactly one row (t1, from the not-all-zero counter `b`). -/
theorem C9_allzero_counter_row_counterexample :
    get_counters_csv
        (ingestCounterLines [(⟨10, 0⟩, "b COUNT : 7"), (⟨20, 0⟩, "a COUNT : 0")]
          CountersMngr.empty) =
      CsvResult.csv ["b"] [(⟨10, 0⟩, [7]), (⟨20, 0⟩, [0])] ∧
    are_all_counter_entries_zero
        (ingestCounterLines [(⟨10, 0⟩, "b COUNT : 7"), (⟨20, 0⟩, "a COUNT : 0")]
          CountersMngr.empty) "a" = true := by
  decide

/-- C9 (amended): provided every per-counter series is strictly
time-ascending and all recorded timestamps fall in pairwise-distinct whole
seconds (the cursor comparison `compare_times` truncates sub-second
digits), the counters CSV has exactly one row per distinct timestamp
occurring in ANY counter's series - all-zero counters contribute rows but
not columns - and for each row and each not-all-zero counter the emitted
cell is the counter's recorded value when it has a sample at exactly that
timestamp (advancing that counter's cursor) and 0 otherwise (cursor
unchanged), so a later real sample is never skipped. -/
theorem C9_counters_csv_rows_and_cells :
    ∀ (m : CountersMngr),
      (∀ p ∈ m.counters, List.Chain' CounterEntry.lt p.2) →
      (∀ a ∈ all_counters_times m, ∀ b ∈ all_counters_times m,
        a.sec = b.sec → a = b) →
      get_counters_entries_not_all_zeroes m ≠ [] →
      get_counters_csv m =
        CsvResult.csv ((get_counters_entries_not_all_zeroes m).map Prod.fst)
          ((get_counters_times m).map (fun t =>
            (t, (get_counters_entries_not_all_zeroes m).map
                  (fun p => counterValueAt p.2 t)))) := by
  intro m hchain hsec hne
  have happ : (get_counters_entries_not_all_zeroes m).isEmpty = false :=
    List.isEmpty_eq_false.mpr hne
  have hsub : ∀ p ∈ get_counters_entries_not_all_zeroes m, p ∈ m.counters := by
    intro p hp
    exact (List.mem_filter.mp hp).1
  have hrows := csvRowsAux_spec (get_counters_times m)
    (get_counters_entries_not_all_zeroes m)
    (get_counters_times_pairwise m)
    (fun a ha b hb => hsec a ((mem_get_counters_times m a).mp ha)
      b ((mem_get_counters_times m b).mp hb))
    (fun p hp => hchain p (hsub p hp))
    (fun p hp e he => (mem_get_counters_times m e.time).mpr
      (mem_all_counters_times m p (hsub p hp) e he))
  unfold get_counters_csv
  simp only [happ, Bool.false_eq_true, if_false, hrows]

/-- C9 witness: the amended statement evaluated at a concrete two-counter
manager (`b` non-zero at t1, `a` all-zero at t2). -/
theorem C9_counters_csv_rows_and_cells_witness :
    get_counters_csv
        (ingestCounterLines [(⟨10, 0⟩, "b COUNT : 7"), (⟨20, 0⟩, "a COUNT : 0")]
          CountersMngr.empty) =
      CsvResult.csv
        ((get_counters_entries_not_all_zeroes
            (ingestCounterLines [(⟨10, 0⟩, "b COUNT : 7"), (⟨20, 0⟩, "a COUNT : 0")]
              CountersMngr.empty)).map Prod.fst)
        ((get_counters_times
            (ingestCounterLines [(⟨10, 0⟩, "b COUNT : 7"), (⟨20, 0⟩, "a COUNT : 0")]
              CountersMngr.empty)).map (fun t =>
          (t, (get_counters_entries_not_all_zeroes
                (ingestCounterLines [(⟨10, 0⟩, "b COUNT : 7"), (⟨20, 0⟩, "a COUNT : 0")]
                  CountersMngr.empty)).map
                (fun p => counterValueAt p.2 t)))) :=
  C9_counters_csv_rows_and_cells _
    (by
      intro p hp
      have hev : (ingestCounterLines
          [(⟨10, 0⟩, "b COUNT : 7"), (⟨20, 0⟩, "a COUNT : 0")]
          CountersMngr.empty).counters =
            [("b", [⟨⟨10, 0⟩, 7⟩]), ("a", [⟨⟨20, 0⟩, 0⟩])] := by decide
      rw [hev] at hp
      rcases List.mem_cons.mp hp with h | h
      · rw [h]; exact List.chain'_singleton _
      · rcases List.mem_cons.mp h with h2 | h2
        · rw [h2]; exact List.chain'_singleton _
        · simp at h2)
    (by decide) (by decide)

end LogParserSpec
